import Mathlib

/-!
Shallow embedding of the dual-channel STT service (SttService) and the gaia
provider session of this repository, together with proofs about its turn
debouncing, audio batching, WAV encoding, capture chunking and session close
behaviour.

Modelling conventions:
* JS strings are `List Char`; Node `Buffer`s are `List Nat` (byte values).
* `setTimeout(cb, ms)` at time `now` is an `Option Nat` field holding the
  absolute deadline `now + ms`; a cleared or fired timer is `none` (a fired JS
  handle stays truthy but inert; none of the modelled paths distinguish this).
* Base64 encoding/decoding is the identity on the underlying bytes.
* External asynchronous results (the gaia transcription HTTP response) enter
  the model as explicit parameters.
-/

set_option maxRecDepth 2000

namespace GlassStt

/-- Provider families used by the service: gemini (turn-based streaming),
openai-style delta streaming, and gaia (batch-only whisper transcription). -/
inductive Provider where
  | gemini
  | openai
  | gaia
deriving DecidableEq

/-- The slice of getCurrentModelInfo the service branches on. -/
structure ModelInfo where
  provider : Provider
deriving DecidableEq

/-- Capability surface of a provider STT session object as probed dynamically
by the service via typeof checks. The gaia session returned by createSTT in
gaia.js exposes transcribeAudio (and transcribe, close) but no
sendRealtimeInput; the streaming provider sessions expose sendRealtimeInput. -/
structure Session where
  hasSendRealtimeInput : Bool
  hasTranscribeAudio : Bool
deriving DecidableEq

/-- Session object built for a provider, per the capability checks in
initializeSttSessions and the gaia.js factory. -/
def mkSession : Provider → Session
  | Provider.gaia => { hasSendRealtimeInput := false, hasTranscribeAudio := true }
  | _ => { hasSendRealtimeInput := true, hasTranscribeAudio := false }

inductive Speaker where
  | me
  | them
deriving DecidableEq

/-- One stt-update message posted to the renderer windows
(the TranscriptEvent of the specification). -/
structure SttEvent where
  speaker : Speaker
  text : List Char
  partialFlag : Bool
  finalFlag : Bool
  ts : Nat
deriving DecidableEq

/-- Payload handed to session.sendRealtimeInput: gemini gets a wrapped audio
object, other realtime providers get the raw (base64) data. -/
inductive RtPayload where
  | geminiAudio (data : List Nat)
  | raw (data : List Nat)
deriving DecidableEq

/-- Errors thrown (as rejected promises) out of the audio-send entry points. -/
inductive SttError where
  | sessionNotActive
  | noModelInfo
  | typeErr
deriving DecidableEq

/-- The mutable instance state of SttService, together with traces of its
observable outputs (renderer events, metering events, callbacks, provider
calls, error logs). -/
structure SttState where
  mySttSession : Option Session
  theirSttSession : Option Session
  myCurrentUtterance : List Char
  theirCurrentUtterance : List Char
  myCompletionBuffer : List Char
  theirCompletionBuffer : List Char
  myCompletionTimer : Option Nat
  theirCompletionTimer : Option Nat
  modelInfo : Option ModelInfo
  myAudioBuffer : List (List Nat)
  theirAudioBuffer : List (List Nat)
  myAudioTimer : Option Nat
  theirAudioTimer : Option Nat
  systemAudioProc : Bool
  rendererEvents : List SttEvent
  meteringEvents : List (List Nat)
  completeCallbacks : List (Speaker × List Char)
  statusUpdates : Nat
  transcribeCallsMe : List (List Nat)
  transcribeCallsThem : List (List Nat)
  realtimeSendsMe : List RtPayload
  realtimeSendsThem : List RtPayload
  errorLogs : Nat
deriving DecidableEq

/-- State right after a successful initializeSttSessions for provider p. -/
def initState (p : Provider) : SttState :=
  { mySttSession := some (mkSession p), theirSttSession := some (mkSession p),
    myCurrentUtterance := [], theirCurrentUtterance := [],
    myCompletionBuffer := [], theirCompletionBuffer := [],
    myCompletionTimer := none, theirCompletionTimer := none,
    modelInfo := some { provider := p },
    myAudioBuffer := [], theirAudioBuffer := [],
    myAudioTimer := none, theirAudioTimer := none,
    systemAudioProc := false,
    rendererEvents := [], meteringEvents := [], completeCallbacks := [],
    statusUpdates := 0, transcribeCallsMe := [], transcribeCallsThem := [],
    realtimeSendsMe := [], realtimeSendsThem := [], errorLogs := 0 }

/-- Whitespace predicate for JS String.prototype.trim (the characters that
occur in practice; trim also strips a few rarer Unicode space characters). -/
def isJsWs (c : Char) : Bool :=
  c = ' ' || c = Char.ofNat 9 || c = Char.ofNat 10 || c = Char.ofNat 11 ||
  c = Char.ofNat 12 || c = Char.ofNat 13 || c = Char.ofNat 160 || c = Char.ofNat 65279

/-- Model of JS text.trim(): strip leading and trailing whitespace. -/
def jsTrim (s : List Char) : List Char :=
  ((s.dropWhile isJsWs).reverse.dropWhile isJsWs).reverse

/-- A string containing at least one non-whitespace character. -/
def hasNonWs (s : List Char) : Bool :=
  s.any (fun c => !isJsWs c)

/-- The reserved noise sentinel of the gemini branch. -/
def noiseChars : List Char := ['<', 'n', 'o', 'i', 's', 'e', '>']

/-- The provider-internal audio tag marker suppressed in the delta branch. -/
def vqMarker : List Char := ['v', 'q', '_', 'l', 'b', 'r', '_', 'a', 'u', 'd', 'i', 'o', '_']

/-- Model of JS s.includes(pat). -/
def listContains (s pat : List Char) : Bool :=
  (List.range (s.length + 1)).any (fun i => decide ((s.drop i).take pat.length = pat))

/-- Model of this.modelInfo?.provider === 'gemini'. -/
def modelProviderIsGemini (st : SttState) : Bool :=
  match st.modelInfo with
  | some mi => decide (mi.provider = Provider.gemini)
  | none => false

/-- flushMyCompletion: emit the accumulated turn as a single final stt-update
(and fire the completion callback), then reset the buffers; a missing
modelInfo or an empty trimmed text makes it a no-op. -/
def flushMyCompletion (st : SttState) (now : Nat) : SttState :=
  let finalText := jsTrim (st.myCompletionBuffer ++ st.myCurrentUtterance)
  if st.modelInfo.isNone ∨ finalText = [] then st
  else
    { st with
      completeCallbacks := st.completeCallbacks ++ [(Speaker.me, finalText)],
      rendererEvents := st.rendererEvents ++
        [{ speaker := Speaker.me, text := finalText, partialFlag := false,
           finalFlag := true, ts := now }],
      myCompletionBuffer := [],
      myCompletionTimer := none,
      myCurrentUtterance := [],
      statusUpdates := st.statusUpdates + 1 }

/-- The buffer-merge step of debounceMyCompletion for a non-gemini provider:
this.myCompletionBuffer += (this.myCompletionBuffer ? ' ' : '') + text. -/
def jstep (b t : List Char) : List Char :=
  b ++ (if b = [] then [] else [' ']) ++ t

/-- debounceMyCompletion: merge the text into the completion buffer
(byte-adjacent for gemini, space separated otherwise), then clear any armed
completion timer and arm a fresh COMPLETION_DEBOUNCE_MS (2000 ms) timer. -/
def debounceMyCompletion (st : SttState) (text : List Char) (now : Nat) : SttState :=
  let buf :=
    if modelProviderIsGemini st then st.myCompletionBuffer ++ text
    else jstep st.myCompletionBuffer text
  { st with myCompletionBuffer := buf, myCompletionTimer := some (now + 2000) }

/-- Message types of the non-gemini (delta-streaming) branch. -/
inductive MsgType where
  | delta
  | completed
  | other
deriving DecidableEq

/-- Inbound provider message, flattened to the fields handleMyMessage reads:
serverContent.turnComplete, serverContent.inputTranscription.text (gemini),
message.type and the coalesced transcript/delta text (others), and whether an
error field is present. -/
structure Msg where
  turnComplete : Bool
  inputTranscription : Option (List Char)
  mtype : MsgType
  mtext : List Char
  hasError : Bool
deriving DecidableEq

/-- The trailing `if (message.error)` console-error. -/
def logError (st : SttState) (msg : Msg) : SttState :=
  if msg.hasError then { st with errorLogs := st.errorLogs + 1 } else st

/-- handleMyMessage: the per-message callback installed for the "Me" channel.
Gemini branch: turn-complete flushes if a timer is armed (early return);
a transcription chunk is ignored if empty, whitespace-only or the noise
sentinel, otherwise debounced and echoed as a partial stt-update.
Non-gemini branch: a delta clears the completion timer and extends the live
utterance (emitting a partial unless the text is empty or carries the
vq marker); a completed message trims its text, clears the live utterance and
debounces the trimmed utterance. -/
def handleMyMessage (st : SttState) (msg : Msg) (now : Nat) : SttState :=
  match st.modelInfo with
  | none => st
  | some mi =>
    if mi.provider = Provider.gemini then
      if msg.turnComplete then
        match st.myCompletionTimer with
        | some _ => flushMyCompletion { st with myCompletionTimer := none } now
        | none => st
      else
        match msg.inputTranscription with
        | none => st
        | some textChunk =>
          if textChunk = [] then st
          else if jsTrim textChunk = [] ∨ jsTrim textChunk = noiseChars then st
          else
            let st1 := debounceMyCompletion st textChunk now
            let st2 := { st1 with rendererEvents := st1.rendererEvents ++
              [{ speaker := Speaker.me, text := st1.myCompletionBuffer,
                 partialFlag := true, finalFlag := false, ts := now }] }
            logError st2 msg
    else
      let st1 :=
        match msg.mtype with
        | MsgType.delta =>
          let stA := { st with myCompletionTimer := none,
                               myCurrentUtterance := st.myCurrentUtterance ++ msg.mtext }
          let continuousText :=
            stA.myCompletionBuffer ++
              (if stA.myCompletionBuffer = [] then [] else [' ']) ++ stA.myCurrentUtterance
          if msg.mtext ≠ [] ∧ listContains msg.mtext vqMarker = false then
            { stA with rendererEvents := stA.rendererEvents ++
              [{ speaker := Speaker.me, text := continuousText,
                 partialFlag := true, finalFlag := false, ts := now }] }
          else stA
        | MsgType.completed =>
          if msg.mtext ≠ [] ∧ jsTrim msg.mtext ≠ [] then
            debounceMyCompletion { st with myCurrentUtterance := [] } (jsTrim msg.mtext) now
          else st
        | MsgType.other => st
      logError st1 msg

/-- Deliver a pending completion-timer expiry that is due at or before time t:
the timer callback is () => this.flushMyCompletion(), running at its
deadline. -/
def fireMyTimerIfDue (st : SttState) (t : Nat) : SttState :=
  match st.myCompletionTimer with
  | some d => if d ≤ t then flushMyCompletion { st with myCompletionTimer := none } d else st
  | none => st

/-- Process a time-ordered list of (arrival time, message) events, delivering
any due timer expiry before each message. -/
def runMyMsgs (st : SttState) (evs : List (Nat × Msg)) : SttState :=
  evs.foldl (fun s p => handleMyMessage (fireMyTimerIfDue s p.1) p.2 p.1) st

/-- Let the armed completion timer (if any) expire after the last message. -/
def settleMy (st : SttState) : SttState :=
  match st.myCompletionTimer with
  | some d => flushMyCompletion { st with myCompletionTimer := none } d
  | none => st

/-- Convenience constructors for the message shapes the claims exercise. -/
def completedMsg (t : List Char) : Msg :=
  { turnComplete := false, inputTranscription := none, mtype := MsgType.completed,
    mtext := t, hasError := false }

def transcriptionMsg (t : List Char) : Msg :=
  { turnComplete := false, inputTranscription := some t, mtype := MsgType.other,
    mtext := [], hasError := false }

def turnCompleteMsg : Msg :=
  { turnComplete := true, inputTranscription := none, mtype := MsgType.other,
    mtext := [], hasError := false }

/-! WAV encapsulation (pcmToWav). -/

/-- Node Buffer write of a byte sequence at an in-bounds offset. -/
def writeBytesAt (buf : List Nat) (off : Nat) (bytes : List Nat) : List Nat :=
  buf.take off ++ bytes ++ buf.drop (off + bytes.length)

/-- Little-endian bytes written by Buffer.writeUInt16LE (values in range). -/
def le16 (v : Nat) : List Nat := [v % 256, v / 256 % 256]

/-- Little-endian bytes written by Buffer.writeUInt32LE (values in range;
Node throws a RangeError above 2^32 - 1, which the modelled call sites never
reach for realistic buffer sizes). -/
def le32 (v : Nat) : List Nat :=
  [v % 256, v / 256 % 256, v / 65536 % 256, v / 16777216 % 256]

def riffBytes : List Nat := [82, 73, 70, 70]

def waveBytes : List Nat := [87, 65, 86, 69]

def fmtChunkBytes : List Nat := [102, 109, 116, 32]

def dataChunkBytes : List Nat := [100, 97, 116, 97]

/-- pcmToWav: allocate a zeroed buffer of 44 + dataSize bytes, write the
canonical RIFF/WAVE header fields at their fixed offsets, then copy the PCM
payload at offset 44. -/
def pcmToWav (pcmBuffer : List Nat) (numChannels sampleRate bitDepth : Nat) : List Nat :=
  let byteRate := sampleRate * numChannels * bitDepth / 8
  let blockAlign := numChannels * bitDepth / 8
  let wavHeaderSize := 44
  let dataSize := pcmBuffer.length
  let buffer := List.replicate (wavHeaderSize + dataSize) 0
  let buffer := writeBytesAt buffer 0 riffBytes
  let buffer := writeBytesAt buffer 4 (le32 (36 + dataSize))
  let buffer := writeBytesAt buffer 8 waveBytes
  let buffer := writeBytesAt buffer 12 fmtChunkBytes
  let buffer := writeBytesAt buffer 16 (le32 16)
  let buffer := writeBytesAt buffer 20 (le16 1)
  let buffer := writeBytesAt buffer 22 (le16 numChannels)
  let buffer := writeBytesAt buffer 24 (le32 sampleRate)
  let buffer := writeBytesAt buffer 28 (le32 byteRate)
  let buffer := writeBytesAt buffer 32 (le16 blockAlign)
  let buffer := writeBytesAt buffer 34 (le16 bitDepth)
  let buffer := writeBytesAt buffer 36 dataChunkBytes
  let buffer := writeBytesAt buffer 40 (le32 dataSize)
  writeBytesAt buffer 44 pcmBuffer

/-! Audio batching for the gaia (batch-only) provider. -/

/-- sendAudioContent ("Me" channel): throws if the session is missing; for a
missing modelInfo the on-the-fly refetch is modelled as unavailable; for the
gaia provider the data is pushed onto myAudioBuffer and a 5000 ms timer is
armed only if none is armed; other providers forward via sendRealtimeInput. -/
def sendAudioContent (st : SttState) (data : List Nat) (now : Nat) :
    Except SttError SttState :=
  match st.mySttSession with
  | none => Except.error SttError.sessionNotActive
  | some s =>
    match st.modelInfo with
    | none => Except.error SttError.noModelInfo
    | some mi =>
      if mi.provider = Provider.gaia then
        let st1 := { st with myAudioBuffer := st.myAudioBuffer ++ [data] }
        Except.ok (if st1.myAudioTimer.isNone
          then { st1 with myAudioTimer := some (now + 5000) } else st1)
      else
        if s.hasSendRealtimeInput then
          Except.ok { st with realtimeSendsMe := st.realtimeSendsMe ++
            [if mi.provider = Provider.gemini then RtPayload.geminiAudio data
             else RtPayload.raw data] }
        else Except.error SttError.typeErr

/-- sendSystemAudioContent ("Them" channel): mirror of sendAudioContent. -/
def sendSystemAudioContent (st : SttState) (data : List Nat) (now : Nat) :
    Except SttError SttState :=
  match st.theirSttSession with
  | none => Except.error SttError.sessionNotActive
  | some s =>
    match st.modelInfo with
    | none => Except.error SttError.noModelInfo
    | some mi =>
      if mi.provider = Provider.gaia then
        let st1 := { st with theirAudioBuffer := st.theirAudioBuffer ++ [data] }
        Except.ok (if st1.theirAudioTimer.isNone
          then { st1 with theirAudioTimer := some (now + 5000) } else st1)
      else
        if s.hasSendRealtimeInput then
          Except.ok { st with realtimeSendsThem := st.realtimeSendsThem ++
            [if mi.provider = Provider.gemini then RtPayload.geminiAudio data
             else RtPayload.raw data] }
        else Except.error SttError.typeErr

/-- Scan for the first closing delimiter, returning the remainder after it. -/
def splitAfterClose (closeC : Char) : List Char → Option (List Char)
  | [] => none
  | c :: rest => if c = closeC then some rest else splitAfterClose closeC rest

/-- Fuel-driven model of the global regex replaces
text.replace(/\[[^\]]*\]/g, '') and text.replace(/\([^\)]*\)/g, ''):
each leftmost match runs from an opening delimiter through the first closing
delimiter after it; an opener with no closer is kept. Fuel bounded by the
list length suffices since every step consumes at least one character. -/
def stripDelim (openC closeC : Char) : Nat → List Char → List Char
  | 0, s => s
  | _ + 1, [] => []
  | fuel + 1, c :: rest =>
    if c = openC then
      match splitAfterClose closeC rest with
      | some rest1 => stripDelim openC closeC fuel rest1
      | none => c :: stripDelim openC closeC fuel rest
    else c :: stripDelim openC closeC fuel rest

def stripBrackets (s : List Char) : List Char :=
  stripDelim '[' ']' s.length s

def stripParens (s : List Char) : List Char :=
  stripDelim '(' ')' s.length s

/-- The myAudioTimer callback in sendAudioContent: concatenate and clear the
pending buffers, clear the timer handle, and if any audio is pending, WAV-wrap
it and submit one transcribeAudio request; result is the provider response
(error for a rejected request, otherwise the optional text field). A
non-empty trimmed text fires the completion callback with the trimmed text
and posts one final stt-update whose text has bracket- and paren-delimited
annotations stripped and is trimmed, then clears the completion buffers. -/
def myAudioTimerFire (st : SttState) (result : Except Unit (Option (List Char)))
    (now : Nat) : SttState :=
  let audioToSend := st.myAudioBuffer.flatten
  let st1 := { st with myAudioBuffer := [], myAudioTimer := none }
  if audioToSend.length > 0 then
    match st1.mySttSession with
    | none => { st1 with errorLogs := st1.errorLogs + 1 }
    | some s =>
      if s.hasTranscribeAudio then
        let wavBuffer := pcmToWav audioToSend 1 24000 16
        let st2 := { st1 with transcribeCallsMe := st1.transcribeCallsMe ++ [wavBuffer] }
        match result with
        | Except.error _ => { st2 with errorLogs := st2.errorLogs + 1 }
        | Except.ok r =>
          match r with
          | none => st2
          | some txt =>
            if txt ≠ [] ∧ jsTrim txt ≠ [] then
              let st3 := { st2 with completeCallbacks :=
                st2.completeCallbacks ++ [(Speaker.me, jsTrim txt)] }
              let cleanText := jsTrim (stripParens (stripBrackets txt))
              let st4 := { st3 with rendererEvents := st3.rendererEvents ++
                [({ speaker := Speaker.me, text := jsTrim cleanText,
                    partialFlag := false, finalFlag := true, ts := now } : SttEvent)] }
              { st4 with statusUpdates := st4.statusUpdates + 1,
                         myCompletionBuffer := [], myCurrentUtterance := [] }
            else st2
      else { st1 with errorLogs := st1.errorLogs + 1 }
  else st1

/-! macOS system audio capture: chunking and downmix. -/

/-- Buffer.readInt16LE. -/
def readInt16LE (b : List Nat) (off : Nat) : Int :=
  let v := b.getD off 0 + 256 * b.getD (off + 1) 0
  if v < 32768 then (v : Int) else (v : Int) - 65536

/-- The two bytes written by Buffer.writeInt16LE. -/
def int16Bytes (x : Int) : List Nat :=
  let v := (x % 65536).toNat
  [v % 256, v / 256]

/-- convertStereoToMono: keep the left (first) 16-bit sample of every 4-byte
stereo frame. -/
def convertStereoToMono (stereoBuffer : List Nat) : List Nat :=
  let samples := stereoBuffer.length / 4
  ((List.range samples).map (fun i => int16Bytes (readInt16LE stereoBuffer (i * 4)))).flatten

/-- Forward one complete chunk: downmix, post the system-audio-data metering
event, then (if a session is present) attempt sendRealtimeInput with the
provider payload; a session without sendRealtimeInput (the gaia batch
session) throws a TypeError which the surrounding try/catch logs. -/
def captureForward (mi : ModelInfo) (st : SttState) (mono : List Nat) : SttState :=
  let stM := { st with meteringEvents := st.meteringEvents ++ [mono] }
  match stM.theirSttSession with
  | none => stM
  | some s =>
    if s.hasSendRealtimeInput then
      { stM with realtimeSendsThem := stM.realtimeSendsThem ++
        [if mi.provider = Provider.gemini then RtPayload.geminiAudio mono
         else RtPayload.raw mono] }
    else { stM with errorLogs := stM.errorLogs + 1 }

/-- The while loop of the stdout data handler: slice CHUNK_SIZE = 9600 byte
chunks while enough bytes are buffered. Fuel bounded by the buffer length
suffices since every iteration consumes 9600 bytes. -/
def captureLoop (mi : ModelInfo) : Nat → SttState → List Nat → SttState × List Nat
  | 0, st, b => (st, b)
  | fuel + 1, st, b =>
    if 9600 ≤ b.length then
      captureLoop mi fuel (captureForward mi st (convertStereoToMono (b.take 9600))) (b.drop 9600)
    else (st, b)

/-- One stdout data event: append to the working buffer, then run the chunk
loop; returns the updated state and the leftover partial chunk. -/
def captureOnData (mi : ModelInfo) (st : SttState) (acc : List Nat) (data : List Nat) :
    SttState × List Nat :=
  captureLoop mi (acc ++ data).length st (acc ++ data)

/-- A whole sequence of stdout data events. -/
def captureRun (mi : ModelInfo) (st : SttState) (acc : List Nat)
    (datas : List (List Nat)) : SttState × List Nat :=
  datas.foldl (fun p d => captureOnData mi p.1 p.2 d) (st, acc)

/-! Session close. -/

/-- closeSessions: stop capture, clear the completion timers, clear each audio
timer (and its buffer) if armed, close and null both provider sessions, then
reset utterances, completion buffers and modelInfo. No stt-update is posted
anywhere on this path. -/
def closeSessions (st : SttState) : SttState :=
  let st1 := { st with systemAudioProc := false }
  let st2 := { st1 with myCompletionTimer := none, theirCompletionTimer := none }
  let st3 := if st2.myAudioTimer.isSome
    then { st2 with myAudioTimer := none, myAudioBuffer := [] } else st2
  let st4 := if st3.theirAudioTimer.isSome
    then { st3 with theirAudioTimer := none, theirAudioBuffer := [] } else st3
  let st5 := { st4 with mySttSession := none, theirSttSession := none }
  { st5 with myCurrentUtterance := [], theirCurrentUtterance := [],
             myCompletionBuffer := [], theirCompletionBuffer := [],
             modelInfo := none }

/-! Statement-side notions used by the theorems. -/

/-- The canonical sequence of header segments pcmToWav writes for
(mono, 16-bit, 24000 Hz) input of length n. -/
def wavSegs (n : Nat) : List (List Nat) :=
  [riffBytes, le32 (36 + n), waveBytes, fmtChunkBytes, le32 16, le16 1, le16 1,
   le32 24000, le32 48000, le16 2, le16 16, dataChunkBytes, le32 n]

/-- Sequential in-place writes of contiguous segments, used to relate
pcmToWav to its segment list. -/
def writeSeq (buf : List Nat) (off : Nat) : List (List Nat) → List Nat
  | [] => buf
  | seg :: rest => writeSeq (writeBytesAt buf off seg) (off + seg.length) rest

/-- Little-endian 32-bit decode, for parsing header fields back. -/
def de32 (b : List Nat) : Nat :=
  b.getD 0 0 + 256 * b.getD 1 0 + 65536 * b.getD 2 0 + 16777216 * b.getD 3 0

/-- The aligned complete 9600-byte slices of a byte stream. -/
def chunkSlices (b : List Nat) : List (List Nat) :=
  (List.range (b.length / 9600)).map (fun i => (b.drop (9600 * i)).take 9600)

/-- The partial tail left after removing all complete 9600-byte slices. -/
def chunkLeft (b : List Nat) : List Nat :=
  b.drop (9600 * (b.length / 9600))

/-- Payloads pushed to sendRealtimeInput by the capture loop, as a function of
the session capabilities. -/
def captureSends (mi : ModelInfo) (sess : Option Session) (b : List Nat) : List RtPayload :=
  match sess with
  | none => []
  | some s =>
    if s.hasSendRealtimeInput then
      (chunkSlices b).map (fun c =>
        if mi.provider = Provider.gemini then RtPayload.geminiAudio (convertStereoToMono c)
        else RtPayload.raw (convertStereoToMono c))
    else []

/-- Errors logged by the capture loop, as a function of the session
capabilities. -/
def captureErrs (sess : Option Session) (b : List Nat) : Nat :=
  match sess with
  | none => 0
  | some s => if s.hasSendRealtimeInput then 0 else (chunkSlices b).length

/-- Space-joined concatenation of a list of strings. -/
def spaceJoin : List (List Char) → List Char
  | [] => []
  | [t] => t
  | t :: rest => t ++ ' ' :: spaceJoin rest

/-- Left fold of the debounce merge step, starting from a given buffer. -/
def joinFold (b : List Char) (l : List (List Char)) : List Char :=
  l.foldl jstep b

/-- Completion-timer deadline after a sequence of debounced fragments. -/
def timerAfter (o : Option Nat) (frags : List (Nat × List Char)) : Option Nat :=
  match frags.getLast? with
  | some p => some (p.1 + 2000)
  | none => o

/-- An armed deadline (if any) lies strictly after the first arrival. -/
def headOkay (o : Option Nat) (frags : List (Nat × List Char)) : Prop :=
  match o, frags with
  | some d, p :: _ => p.1 < d
  | _, _ => True

/-- Arrival times are nondecreasing with consecutive gaps below w. -/
def gapsLt (w : Nat) : List Nat → Bool
  | [] => true
  | [_] => true
  | a :: b :: rest => (decide (a ≤ b) && decide (b < a + w)) && gapsLt w (b :: rest)

/-- Deliver a list of microphone arrivals through sendAudioContent. -/
def sendAudioMany (st : SttState) : List (Nat × List Nat) → Except SttError SttState
  | [] => Except.ok st
  | (t, d) :: rest =>
    match sendAudioContent st d t with
    | Except.error e => Except.error e
    | Except.ok st1 => sendAudioMany st1 rest

/-- Audio-window timer value after a sequence of arrivals: an already armed
timer is kept (arming is conditional on no timer being armed), otherwise the
first arrival arms it. -/
def audioTimerAfter (o : Option Nat) (arrivals : List (Nat × List Nat)) : Option Nat :=
  match o, arrivals with
  | some d, _ => some d
  | none, [] => none
  | none, a :: _ => some (a.1 + 5000)

/-- Concrete state for the C10 scenario: one pending 2-byte audio arrival on
the "Me" channel of a gaia session, window timer armed with deadline 5000. -/
def c10State : SttState :=
  { initState Provider.gaia with myAudioBuffer := [[1, 2]], myAudioTimer := some 5000 }

/-- A transcription result consisting solely of a bracketed annotation. -/
def musicChars : List Char := ['[', 'm', 'u', 's', 'i', 'c', ']']

/-- Concrete gaia state with both audio-window timers armed, for the C7
witness. -/
def c7State : SttState :=
  { initState Provider.gaia with myAudioTimer := some 77, theirAudioTimer := some 77 }

/-- Concrete mid-session state with pending debounced text, pending audio and
armed timers on both channels, for the C9 witness. -/
def c9State : SttState :=
  { initState Provider.gaia with
      myCompletionBuffer := ['h', 'i'], myCompletionTimer := some 1000,
      theirCompletionBuffer := ['y', 'o'], theirCompletionTimer := some 1500,
      myCurrentUtterance := ['x'], theirCurrentUtterance := ['y'],
      myAudioBuffer := [[1, 2]], myAudioTimer := some 5000,
      theirAudioBuffer := [[3]], theirAudioTimer := some 5000,
      systemAudioProc := true }

/-- The full timed scenario of claim C1: deliver a burst of completed
(delta-streaming) utterances to the "Me" channel, then let the debounce
timer expire. -/
def c1Run (frags : List (Nat × List Char)) : SttState :=
  settleMy (runMyMsgs (initState Provider.openai)
    (frags.map (fun p => (p.1, completedMsg p.2))))

/-- The timed scenario of claim C3: deliver gemini transcription chunks to
the "Me" channel followed by a turn-complete marker at time tm. -/
def c3Run (frags : List (Nat × List Char)) (tm : Nat) : SttState :=
  runMyMsgs (initState Provider.gemini)
    (frags.map (fun p => (p.1, transcriptionMsg p.2)) ++ [(tm, turnCompleteMsg)])

/-! Helper lemmas about trimming and joining. -/

theorem jsTrim_nil : jsTrim [] = [] := rfl

theorem dropWhile_eq_nil_of_all {p : Char → Bool} {l : List Char}
    (h : ∀ x ∈ l, p x) : l.dropWhile p = [] :=
  List.dropWhile_eq_nil_iff.mpr h

theorem jsTrim_eq_nil_of_all_ws {s : List Char} (h : ∀ x ∈ s, isJsWs x) :
    jsTrim s = [] := by
  unfold jsTrim
  rw [dropWhile_eq_nil_of_all h]
  simp

theorem hasNonWs_dropWhile {s : List Char} (h : hasNonWs s = true) :
    hasNonWs (s.dropWhile isJsWs) = true := by
  induction s with
  | nil => simp [hasNonWs] at h
  | cons c rest ih =>
    by_cases hc : isJsWs c
    · rw [List.dropWhile_cons_of_pos hc]
      apply ih
      simpa [hasNonWs, hc] using h
    · rwa [List.dropWhile_cons_of_neg hc]

theorem hasNonWs_reverse {s : List Char} (h : hasNonWs s = true) :
    hasNonWs s.reverse = true := by
  simpa [hasNonWs] using h

theorem hasNonWs_jsTrim {s : List Char} (h : hasNonWs s = true) :
    hasNonWs (jsTrim s) = true :=
  hasNonWs_reverse (hasNonWs_dropWhile (hasNonWs_reverse (hasNonWs_dropWhile h)))

theorem ne_nil_of_hasNonWs {s : List Char} (h : hasNonWs s = true) : s ≠ [] := by
  intro hs
  subst hs
  simp [hasNonWs] at h

theorem jsTrim_ne_nil_of_hasNonWs {s : List Char} (h : hasNonWs s = true) :
    jsTrim s ≠ [] :=
  ne_nil_of_hasNonWs (hasNonWs_jsTrim h)

theorem hasNonWs_of_jsTrim_ne_nil {s : List Char} (h : jsTrim s ≠ []) :
    hasNonWs s = true := by
  by_contra hno
  apply h
  apply jsTrim_eq_nil_of_all_ws
  intro x hx
  by_contra hxw
  exact hno (List.any_eq_true.mpr ⟨x, hx, by simpa using hxw⟩)

theorem hasNonWs_append_left {s t : List Char} (h : hasNonWs s = true) :
    hasNonWs (s ++ t) = true := by
  rcases List.any_eq_true.mp h with ⟨x, hx, hxw⟩
  exact List.any_eq_true.mpr ⟨x, List.mem_append_left t hx, hxw⟩

theorem ne_nil_of_jsTrim_ne_nil {s : List Char} (h : jsTrim s ≠ []) : s ≠ [] := by
  intro hs
  subst hs
  exact h rfl

theorem joinFold_nil (b : List Char) : joinFold b [] = b := rfl

theorem joinFold_cons (b x : List Char) (l : List (List Char)) :
    joinFold b (x :: l) = joinFold (jstep b x) l := rfl

theorem jstep_nil (t : List Char) : jstep [] t = t := by
  simp [jstep]

theorem jstep_of_ne_nil {b : List Char} (hb : b ≠ []) (t : List Char) :
    jstep b t = b ++ ' ' :: t := by
  simp [jstep, hb]

theorem joinFold_eq_append {l : List (List Char)} :
    ∀ {b : List Char}, b ≠ [] → (∀ x ∈ l, x ≠ []) →
      joinFold b l = b ++ (l.map (fun t => ' ' :: t)).flatten := by
  induction l with
  | nil => intro b hb _; simp [joinFold]
  | cons x rest ih =>
    intro b hb hl
    rw [joinFold_cons, jstep_of_ne_nil hb]
    rw [ih (by simp) (fun y hy => hl y (List.mem_cons_of_mem x hy))]
    simp

theorem spaceJoin_eq_append {x : List Char} {l : List (List Char)}
    (hl : ∀ y ∈ l, y ≠ []) :
    spaceJoin (x :: l) = x ++ (l.map (fun t => ' ' :: t)).flatten := by
  induction l generalizing x with
  | nil => simp [spaceJoin]
  | cons y rest ih =>
    rw [show spaceJoin (x :: y :: rest) = x ++ ' ' :: spaceJoin (y :: rest) from rfl]
    rw [ih (fun z hz => hl z (List.mem_cons_of_mem y hz))]
    simp

theorem joinFold_eq_spaceJoin {l : List (List Char)} (hl : ∀ x ∈ l, x ≠ []) :
    joinFold [] l = spaceJoin l := by
  cases l with
  | nil => rfl
  | cons x rest =>
    rw [joinFold_cons, jstep_nil]
    rw [joinFold_eq_append (hl x (List.mem_cons_self x rest))
      (fun y hy => hl y (List.mem_cons_of_mem x hy))]
    rw [spaceJoin_eq_append (fun y hy => hl y (List.mem_cons_of_mem x hy))]

theorem hasNonWs_spaceJoin {x : List Char} {l : List (List Char)}
    (hx : hasNonWs x = true) (hl : ∀ y ∈ l, y ≠ []) :
    hasNonWs (spaceJoin (x :: l)) = true := by
  rw [spaceJoin_eq_append hl]
  exact hasNonWs_append_left hx

/-! Helper lemmas about the timed message runner. -/

theorem runMyMsgs_nil (st : SttState) : runMyMsgs st [] = st := rfl

theorem runMyMsgs_cons (st : SttState) (x : Nat × Msg) (xs : List (Nat × Msg)) :
    runMyMsgs st (x :: xs) =
      runMyMsgs (handleMyMessage (fireMyTimerIfDue st x.1) x.2 x.1) xs := rfl

theorem runMyMsgs_append (st : SttState) (a b : List (Nat × Msg)) :
    runMyMsgs st (a ++ b) = runMyMsgs (runMyMsgs st a) b :=
  List.foldl_append ..

theorem gapsLt_cons_cons {w a b : Nat} {rest : List Nat}
    (h : gapsLt w (a :: b :: rest) = true) :
    a ≤ b ∧ b < a + w ∧ gapsLt w (b :: rest) = true := by
  simp only [gapsLt, Bool.and_eq_true, decide_eq_true_eq] at h
  exact ⟨h.1.1, h.1.2, h.2⟩

theorem getLast?_cons_ne_none {α : Type} (r : α) (rs : List α) :
    ∃ q, (r :: rs).getLast? = some q := by
  induction rs generalizing r with
  | nil => exact ⟨r, rfl⟩
  | cons x xs ih =>
    rcases ih x with ⟨q, hq⟩
    exact ⟨q, by rw [List.getLast?_cons_cons]; exact hq⟩

theorem timerAfter_cons (o : Option Nat) (p : Nat × List Char)
    (rest : List (Nat × List Char)) :
    timerAfter o (p :: rest) = timerAfter (some (p.1 + 2000)) rest := by
  cases rest with
  | nil => simp [timerAfter]
  | cons r rs =>
    rcases getLast?_cons_ne_none r rs with ⟨q, hq⟩
    simp [timerAfter, List.getLast?_cons_cons, hq]

theorem fireMyTimerIfDue_noop {st : SttState} {t : Nat}
    (h : ∀ d, st.myCompletionTimer = some d → t < d) :
    fireMyTimerIfDue st t = st := by
  unfold fireMyTimerIfDue
  cases hT : st.myCompletionTimer with
  | none => rfl
  | some d =>
    have hd := h d hT
    have hnle : ¬ d ≤ t := by omega
    simp [hnle]

theorem handleMyMessage_completed (st : SttState) (f : List Char) (t : Nat)
    (hmi : st.modelInfo = some { provider := Provider.openai })
    (hf : jsTrim f ≠ []) :
    handleMyMessage st (completedMsg f) t =
      { st with myCompletionBuffer := jstep st.myCompletionBuffer (jsTrim f),
                myCompletionTimer := some (t + 2000),
                myCurrentUtterance := [] } := by
  have hfne : f ≠ [] := ne_nil_of_jsTrim_ne_nil hf
  simp [handleMyMessage, hmi, completedMsg, logError, debounceMyCompletion,
        modelProviderIsGemini, hfne, hf]

theorem runMyMsgs_completed :
    ∀ (frags : List (Nat × List Char)) (st : SttState),
      st.modelInfo = some { provider := Provider.openai } →
      st.myCurrentUtterance = [] →
      headOkay st.myCompletionTimer frags →
      gapsLt 2000 (frags.map Prod.fst) = true →
      (∀ p ∈ frags, jsTrim p.2 ≠ []) →
      runMyMsgs st (frags.map (fun p => (p.1, completedMsg p.2))) =
        { st with
            myCompletionBuffer :=
              joinFold st.myCompletionBuffer (frags.map (fun p => jsTrim p.2)),
            myCompletionTimer := timerAfter st.myCompletionTimer frags } := by
  intro frags
  induction frags with
  | nil =>
    intro st hmi hu hh hg hmem
    simp [runMyMsgs_nil, joinFold_nil, timerAfter]
  | cons p rest ih =>
    intro st hmi hu hh hg hmem
    obtain ⟨t, f⟩ := p
    have hfire : fireMyTimerIfDue st t = st := by
      apply fireMyTimerIfDue_noop
      intro d hd
      simpa [headOkay, hd] using hh
    have hf : jsTrim f ≠ [] := hmem (t, f) (List.mem_cons_self _ _)
    rw [List.map_cons, runMyMsgs_cons]
    simp only
    rw [hfire, handleMyMessage_completed st f t hmi hf]
    rw [ih _ (by simp [hmi]) rfl
      (by
        cases rest with
        | nil => simp [headOkay]
        | cons q qs =>
          simp only [headOkay]
          have := gapsLt_cons_cons (by simpa using hg)
          exact this.2.1)
      (by
        cases rest with
        | nil => rfl
        | cons q qs =>
          exact (gapsLt_cons_cons (by simpa using hg)).2.2)
      (fun q hq => hmem q (List.mem_cons_of_mem _ hq))]
    simp [List.map_cons, joinFold_cons, timerAfter_cons, hu]

theorem headOkay_none (frags : List (Nat × List Char)) : headOkay none frags := by
  cases frags <;> trivial

theorem settleMy_some {st : SttState} {d : Nat} (ht : st.myCompletionTimer = some d) :
    settleMy st = flushMyCompletion { st with myCompletionTimer := none } d := by
  simp [settleMy, ht]

/-- C1: for every nonempty burst of delta-streaming (non-gemini) completed
utterances on the "Me" channel whose arrival gaps stay below the 2000 ms
debounce interval, letting the quiet-period timer expire emits exactly one
final (non-partial) stt-update, carrying the trimmed space-joined
concatenation of the trimmed utterance texts, at the deadline 2000 ms after
the last fragment; and every debounceMyCompletion call (re)arms the
completion timer to now + 2000. -/
theorem c1_delta_debounce_single_final (frags : List (Nat × List Char))
    (tl : Nat) (fl : List Char)
    (hlast : frags.getLast? = some (tl, fl))
    (hgap : gapsLt 2000 (frags.map Prod.fst) = true)
    (htr : ∀ p ∈ frags, jsTrim p.2 ≠ []) :
    ((c1Run frags).rendererEvents.filter (fun e => !e.partialFlag) =
      [{ speaker := Speaker.me,
         text := jsTrim (spaceJoin (frags.map (fun p => jsTrim p.2))),
         partialFlag := false, finalFlag := true, ts := tl + 2000 }])
    ∧ (c1Run frags).myCompletionBuffer = []
    ∧ (c1Run frags).myCompletionTimer = none
    ∧ (∀ (st : SttState) (txt : List Char) (now : Nat),
        (debounceMyCompletion st txt now).myCompletionTimer = some (now + 2000)) := by
  have hne : frags ≠ [] := by
    intro h
    rw [h] at hlast
    simp at hlast
  have hall : ∀ x ∈ frags.map (fun p => jsTrim p.2), x ≠ [] := by
    intro x hx
    rcases List.mem_map.mp hx with ⟨p, hp, rfl⟩
    exact htr p hp
  have hfne : jsTrim (spaceJoin (frags.map (fun p => jsTrim p.2))) ≠ [] := by
    rcases List.exists_cons_of_ne_nil hne with ⟨p0, rest0, hfr⟩
    subst hfr
    rw [List.map_cons]
    apply jsTrim_ne_nil_of_hasNonWs
    apply hasNonWs_spaceJoin
    · exact hasNonWs_jsTrim
        (hasNonWs_of_jsTrim_ne_nil (htr p0 (List.mem_cons_self _ _)))
    · intro y hy
      exact hall y (by rw [List.map_cons]; exact List.mem_cons_of_mem _ hy)
  have hrun := runMyMsgs_completed frags (initState Provider.openai) rfl rfl
    (headOkay_none frags) hgap htr
  have hbuf : joinFold (initState Provider.openai).myCompletionBuffer
      (frags.map (fun p => jsTrim p.2)) = spaceJoin (frags.map (fun p => jsTrim p.2)) := by

    exact joinFold_eq_spaceJoin hall
  have htim : timerAfter (initState Provider.openai).myCompletionTimer frags =
      some (tl + 2000) := by
    simp [timerAfter, initState, hlast]
  rw [hbuf, htim] at hrun
  refine ⟨?_, ?_, ?_, fun st txt now => by simp [debounceMyCompletion]⟩
  all_goals
    rw [c1Run, hrun]
    simp [settleMy, flushMyCompletion, initState, hfne]

/-- Witness for C1 at the concrete burst "hi" (t = 0 ms), "yo" (t = 1500 ms). -/
theorem c1_delta_debounce_single_final_witness :
    ((c1Run [(0, ['h', 'i']), (1500, ['y', 'o'])]).rendererEvents.filter
        (fun e => !e.partialFlag) =
      [{ speaker := Speaker.me,
         text := jsTrim (spaceJoin ([(0, ['h', 'i']), (1500, ['y', 'o'])].map
           (fun p => jsTrim p.2))),
         partialFlag := false, finalFlag := true, ts := 1500 + 2000 }])
    ∧ (c1Run [(0, ['h', 'i']), (1500, ['y', 'o'])]).myCompletionBuffer = []
    ∧ (c1Run [(0, ['h', 'i']), (1500, ['y', 'o'])]).myCompletionTimer = none
    ∧ (∀ (st : SttState) (txt : List Char) (now : Nat),
        (debounceMyCompletion st txt now).myCompletionTimer = some (now + 2000)) :=
  c1_delta_debounce_single_final [(0, ['h', 'i']), (1500, ['y', 'o'])] 1500 ['y', 'o']
    (by decide) (by decide) (by decide)

theorem handleMyMessage_transcription (st : SttState) (f : List Char) (t : Nat)
    (hmi : st.modelInfo = some { provider := Provider.gemini })
    (hf0 : f ≠ []) (hf1 : jsTrim f ≠ []) (hf2 : jsTrim f ≠ noiseChars) :
    handleMyMessage st (transcriptionMsg f) t =
      { st with myCompletionBuffer := st.myCompletionBuffer ++ f,
                myCompletionTimer := some (t + 2000),
                rendererEvents := st.rendererEvents ++
                  [{ speaker := Speaker.me, text := st.myCompletionBuffer ++ f,
                     partialFlag := true, finalFlag := false, ts := t }] } := by
  simp [handleMyMessage, hmi, transcriptionMsg, logError, debounceMyCompletion,
        modelProviderIsGemini, hf0, hf1, hf2]

theorem handleMyMessage_turnComplete_armed (st : SttState) (t d : Nat)
    (hmi : st.modelInfo = some { provider := Provider.gemini })
    (ht : st.myCompletionTimer = some d) :
    handleMyMessage st turnCompleteMsg t =
      flushMyCompletion { st with myCompletionTimer := none } t := by
  simp [handleMyMessage, hmi, turnCompleteMsg, ht]

theorem flushMyCompletion_emits (st : SttState) (now : Nat)
    (hmi : st.modelInfo.isNone = false)
    (hne : jsTrim (st.myCompletionBuffer ++ st.myCurrentUtterance) ≠ []) :
    flushMyCompletion st now =
      { st with
        completeCallbacks := st.completeCallbacks ++
          [(Speaker.me, jsTrim (st.myCompletionBuffer ++ st.myCurrentUtterance))],
        rendererEvents := st.rendererEvents ++
          [{ speaker := Speaker.me,
             text := jsTrim (st.myCompletionBuffer ++ st.myCurrentUtterance),
             partialFlag := false, finalFlag := true, ts := now }],
        myCompletionBuffer := [],
        myCompletionTimer := none,
        myCurrentUtterance := [],
        statusUpdates := st.statusUpdates + 1 } := by
  simp [flushMyCompletion, hmi, hne]

theorem runMyMsgs_gemini :
    ∀ (frags : List (Nat × List Char)) (st : SttState),
      st.modelInfo = some { provider := Provider.gemini } →
      headOkay st.myCompletionTimer frags →
      gapsLt 2000 (frags.map Prod.fst) = true →
      (∀ p ∈ frags, p.2 ≠ [] ∧ jsTrim p.2 ≠ [] ∧ jsTrim p.2 ≠ noiseChars) →
      ∃ parts, (∀ e ∈ parts, e.partialFlag = true) ∧
        runMyMsgs st (frags.map (fun p => (p.1, transcriptionMsg p.2))) =
          { st with
              myCompletionBuffer := st.myCompletionBuffer ++ (frags.map Prod.snd).flatten,
              myCompletionTimer := timerAfter st.myCompletionTimer frags,
              rendererEvents := st.rendererEvents ++ parts } := by
  intro frags
  induction frags with
  | nil =>
    intro st hmi hh hg hmem
    exact ⟨[], by simp, by simp [runMyMsgs_nil, timerAfter]⟩
  | cons p rest ih =>
    intro st hmi hh hg hmem
    obtain ⟨t, f⟩ := p
    have hfire : fireMyTimerIfDue st t = st := by
      apply fireMyTimerIfDue_noop
      intro d hd
      simpa [headOkay, hd] using hh
    have hf := hmem (t, f) (List.mem_cons_self _ _)
    rw [List.map_cons, runMyMsgs_cons]
    simp only
    rw [hfire, handleMyMessage_transcription st f t hmi hf.1 hf.2.1 hf.2.2]
    rcases ih { st with myCompletionBuffer := st.myCompletionBuffer ++ f,
                        myCompletionTimer := some (t + 2000),
                        rendererEvents := st.rendererEvents ++
                          [{ speaker := Speaker.me, text := st.myCompletionBuffer ++ f,
                             partialFlag := true, finalFlag := false, ts := t }] }
      (by simp [hmi])
      (by
        cases rest with
        | nil => trivial
        | cons q qs => exact (gapsLt_cons_cons (by simpa using hg)).2.1)
      (by
        cases rest with
        | nil => rfl
        | cons q qs =>
          exact (gapsLt_cons_cons (by simpa using hg)).2.2)
      (fun q hq => hmem q (List.mem_cons_of_mem _ hq)) with ⟨parts, hparts, hrun⟩
    refine ⟨{ speaker := Speaker.me, text := st.myCompletionBuffer ++ f,
              partialFlag := true, finalFlag := false, ts := t } :: parts, ?_, ?_⟩
    · intro e he
      rcases List.mem_cons.mp he with h | h
      · rw [h]
      · exact hparts e h
    · rw [hrun]
      simp [timerAfter_cons]

/-- C3 counterexample run: two gemini chunks 3000 ms apart followed by a
turn-complete marker; the debounce timer fires between them, so two final
events are emitted instead of one. -/
theorem c3_as_stated_counterexample :
    ((c3Run [(0, ['a']), (3000, ['b'])] 3001).rendererEvents.filter
      (fun e => !e.partialFlag)).length = 2 := by
  decide

/-- C3 (amended): for every nonempty burst of gemini transcription chunks on
the "Me" channel whose gaps, including the gap to the turn-complete marker,
stay below the 2000 ms debounce interval, the marker immediately (at its own
arrival time, with no timer wait) causes exactly one final stt-update
carrying the trimmed byte-adjacent concatenation of all chunks, and the
armed debounce timer is cancelled. -/
theorem c3_gemini_turn_complete (frags : List (Nat × List Char)) (tm tl : Nat)
    (fl : List Char)
    (hlast : frags.getLast? = some (tl, fl))
    (hgap : gapsLt 2000 (frags.map Prod.fst) = true)
    (hm1 : tl ≤ tm) (hm2 : tm < tl + 2000)
    (htx : ∀ p ∈ frags, p.2 ≠ [] ∧ jsTrim p.2 ≠ [] ∧ jsTrim p.2 ≠ noiseChars) :
    ((c3Run frags tm).rendererEvents.filter (fun e => !e.partialFlag) =
      [{ speaker := Speaker.me, text := jsTrim (frags.map Prod.snd).flatten,
         partialFlag := false, finalFlag := true, ts := tm }])
    ∧ (c3Run frags tm).myCompletionTimer = none
    ∧ (c3Run frags tm).myCompletionBuffer = [] := by
  have hne : frags ≠ [] := by
    intro h
    rw [h] at hlast
    simp at hlast
  have hfl : jsTrim ((frags.map Prod.snd).flatten) ≠ [] := by
    rcases List.exists_cons_of_ne_nil hne with ⟨p0, rest0, hfr⟩
    subst hfr
    rw [List.map_cons, List.flatten_cons]
    exact jsTrim_ne_nil_of_hasNonWs (hasNonWs_append_left
      (hasNonWs_of_jsTrim_ne_nil (htx p0 (List.mem_cons_self _ _)).2.1))
  rcases runMyMsgs_gemini frags (initState Provider.gemini) rfl
    (headOkay_none frags) hgap htx with ⟨parts, hparts, hrun⟩
  have htim : timerAfter (initState Provider.gemini).myCompletionTimer frags =
      some (tl + 2000) := by
    simp [timerAfter, initState, hlast]
  rw [htim] at hrun
  have hsplit : c3Run frags tm =
      handleMyMessage (fireMyTimerIfDue (runMyMsgs (initState Provider.gemini)
        (frags.map (fun p => (p.1, transcriptionMsg p.2)))) tm) turnCompleteMsg tm := by
    rw [c3Run, runMyMsgs_append, runMyMsgs_cons, runMyMsgs_nil]
  have hfilter : parts.filter (fun e => !e.partialFlag) = [] := by
    rw [List.filter_eq_nil_iff]
    intro e he
    simp [hparts e he]
  rw [hsplit, hrun]
  rw [fireMyTimerIfDue_noop (by
    intro d hd
    simp at hd
    omega)]
  rw [handleMyMessage_turnComplete_armed _ tm (tl + 2000) (by simp [initState]) (by simp)]
  rw [flushMyCompletion_emits _ tm (by simp [initState]) (by simp [initState, hfl])]
  refine ⟨?_, by simp, by simp⟩
  simp [initState, List.filter_append, hfilter, hfl]

/-- Witness for the amended C3 at the concrete chunk "ab" (t = 0 ms) with the
marker at t = 100 ms. -/
theorem c3_gemini_turn_complete_witness :
    ((c3Run [(0, ['a', 'b'])] 100).rendererEvents.filter (fun e => !e.partialFlag) =
      [{ speaker := Speaker.me, text := jsTrim ([(0, ['a', 'b'])].map Prod.snd).flatten,
         partialFlag := false, finalFlag := true, ts := 100 }])
    ∧ (c3Run [(0, ['a', 'b'])] 100).myCompletionTimer = none
    ∧ (c3Run [(0, ['a', 'b'])] 100).myCompletionBuffer = [] :=
  c3_gemini_turn_complete [(0, ['a', 'b'])] 100 0 ['a', 'b']
    (by decide) (by decide) (by decide) (by decide) (by decide)

/-! WAV encoding lemmas. -/

theorem writeBytesAt_chunk (a c : List Nat) (r : Nat) :
    writeBytesAt (a ++ List.replicate r 0) a.length c =
      (a ++ c) ++ List.replicate (r - c.length) 0 := by
  unfold writeBytesAt
  rw [List.take_left, ← List.drop_drop, List.drop_left, List.drop_replicate]

theorem writeSeq_spec :
    ∀ (segs : List (List Nat)) (a : List Nat) (r : Nat),
      writeSeq (a ++ List.replicate r 0) a.length segs =
        (a ++ segs.flatten) ++ List.replicate (r - (segs.map List.length).sum) 0 := by
  intro segs
  induction segs with
  | nil => intro a r; simp [writeSeq]
  | cons seg rest ih =>
    intro a r
    rw [writeSeq, writeBytesAt_chunk]
    have hlen : a.length + seg.length = (a ++ seg).length := by simp
    rw [hlen, ih (a ++ seg) (r - seg.length)]
    simp [List.append_assoc, Nat.sub_sub]

theorem pcmToWav_as_writeSeq (pcm : List Nat) :
    pcmToWav pcm 1 24000 16 =
      writeSeq (([] : List Nat) ++ List.replicate (44 + pcm.length) 0)
        ([] : List Nat).length (wavSegs pcm.length ++ [pcm]) := rfl

theorem pcmToWav_canonical_eq (pcm : List Nat) :
    pcmToWav pcm 1 24000 16 = (wavSegs pcm.length).flatten ++ pcm := by
  rw [pcmToWav_as_writeSeq, writeSeq_spec]
  simp [wavSegs, riffBytes, waveBytes, fmtChunkBytes, dataChunkBytes, le32, le16]
  omega

theorem pcmToWav_length (pcm : List Nat) :
    (pcmToWav pcm 1 24000 16).length = pcm.length + 44 := by
  rw [pcmToWav_canonical_eq]
  simp [wavSegs, riffBytes, waveBytes, fmtChunkBytes, dataChunkBytes, le32, le16]

theorem de32_le32 (v : Nat) (hv : v < 4294967296) : de32 (le32 v) = v := by
  simp [de32, le32]
  omega

/-- C2: encoding an N-byte PCM buffer at (mono, 16-bit, 24000 Hz) yields
exactly N + 44 bytes: the canonical 44-byte header — RIFF, little-endian
36 + N, WAVE, fmt-space, 16, format tag 1, channel count 1, sample rate
24000, byte rate 48000, block align 2, bit depth 16, data, dataSize N —
followed by the PCM bytes unchanged; the two size fields parse back exactly.
The hypothesis keeps 36 + N inside writeUInt32LE's accepted range. -/
theorem c2_pcmToWav_canonical (pcm : List Nat)
    (hN : pcm.length + 36 < 4294967296) :
    (pcmToWav pcm 1 24000 16 =
      riffBytes ++ le32 (36 + pcm.length) ++ waveBytes ++ fmtChunkBytes ++
      le32 16 ++ le16 1 ++ le16 1 ++ le32 24000 ++ le32 48000 ++ le16 2 ++
      le16 16 ++ dataChunkBytes ++ le32 pcm.length ++ pcm)
    ∧ (pcmToWav pcm 1 24000 16).length = pcm.length + 44
    ∧ de32 (le32 (36 + pcm.length)) = 36 + pcm.length
    ∧ de32 (le32 pcm.length) = pcm.length := by
  refine ⟨?_, pcmToWav_length pcm, de32_le32 _ (by omega), de32_le32 _ (by omega)⟩
  rw [pcmToWav_canonical_eq]
  simp [wavSegs, List.append_assoc]

/-- Witness for C2 at the concrete 2-byte PCM payload [7, 9]. -/
theorem c2_pcmToWav_canonical_witness :
    (pcmToWav [7, 9] 1 24000 16 =
      riffBytes ++ le32 (36 + List.length [7, 9]) ++ waveBytes ++ fmtChunkBytes ++
      le32 16 ++ le16 1 ++ le16 1 ++ le32 24000 ++ le32 48000 ++ le16 2 ++
      le16 16 ++ dataChunkBytes ++ le32 (List.length [7, 9]) ++ [7, 9])
    ∧ (pcmToWav [7, 9] 1 24000 16).length = List.length [7, 9] + 44
    ∧ de32 (le32 (36 + List.length [7, 9])) = 36 + List.length [7, 9]
    ∧ de32 (le32 (List.length [7, 9])) = List.length [7, 9] :=
  c2_pcmToWav_canonical [7, 9] (by decide)

/-! Audio batching lemmas (gaia provider). -/

theorem audioTimerAfter_nil (o : Option Nat) : audioTimerAfter o [] = o := by
  cases o <;> rfl

theorem audioTimerAfter_some (d : Nat) (l : List (Nat × List Nat)) :
    audioTimerAfter (some d) l = some d := by
  cases l <;> rfl

theorem sendAudioContent_gaia (st : SttState) (s : Session) (data : List Nat) (now : Nat)
    (hs : st.mySttSession = some s)
    (hmi : st.modelInfo = some { provider := Provider.gaia }) :
    sendAudioContent st data now =
      Except.ok (if st.myAudioTimer.isNone
        then { st with myAudioBuffer := st.myAudioBuffer ++ [data],
                       myAudioTimer := some (now + 5000) }
        else { st with myAudioBuffer := st.myAudioBuffer ++ [data] }) := by
  simp [sendAudioContent, hs, hmi]

theorem sendAudioMany_gaia :
    ∀ (arrivals : List (Nat × List Nat)) (st : SttState) (s : Session),
      st.mySttSession = some s →
      st.modelInfo = some { provider := Provider.gaia } →
      sendAudioMany st arrivals =
        Except.ok { st with
          myAudioBuffer := st.myAudioBuffer ++ arrivals.map Prod.snd,
          myAudioTimer := audioTimerAfter st.myAudioTimer arrivals } := by
  intro arrivals
  induction arrivals with
  | nil =>
    intro st s hs hmi
    simp [sendAudioMany, audioTimerAfter_nil]
  | cons a rest ih =>
    intro st s hs hmi
    obtain ⟨t, d⟩ := a
    rw [sendAudioMany, sendAudioContent_gaia st s d t hs hmi]
    cases ht : st.myAudioTimer with
    | none =>
      rw [if_pos (by simp [ht])]
      show sendAudioMany { st with myAudioBuffer := st.myAudioBuffer ++ [d],
                                   myAudioTimer := some (t + 5000) } rest = _
      rw [ih { st with myAudioBuffer := st.myAudioBuffer ++ [d],
                       myAudioTimer := some (t + 5000) } s (by simp [hs]) (by simp [hmi])]
      simp [audioTimerAfter, audioTimerAfter_some]
    | some d0 =>
      rw [if_neg (by simp [ht])]
      show sendAudioMany { st with myAudioBuffer := st.myAudioBuffer ++ [d],
                                   myAudioTimer := some d0 } rest = _
      rw [ih { st with myAudioBuffer := st.myAudioBuffer ++ [d],
                       myAudioTimer := some d0 } s (by simp [hs]) (by simp [hmi])]
      simp [audioTimerAfter, audioTimerAfter_some]

theorem myAudioTimerFire_fields (st : SttState) (s : Session)
    (result : Except Unit (Option (List Char))) (now : Nat)
    (hs : st.mySttSession = some s) (hta : s.hasTranscribeAudio = true)
    (hnb : st.myAudioBuffer.flatten.length > 0) :
    (myAudioTimerFire st result now).myAudioBuffer = []
    ∧ (myAudioTimerFire st result now).myAudioTimer = none
    ∧ (myAudioTimerFire st result now).transcribeCallsMe =
        st.transcribeCallsMe ++ [pcmToWav st.myAudioBuffer.flatten 1 24000 16]
    ∧ (myAudioTimerFire st result now).mySttSession = st.mySttSession
    ∧ (myAudioTimerFire st result now).modelInfo = st.modelInfo := by
  have hnb2 : 0 < (List.map List.length st.myAudioBuffer).sum := by simpa using hnb
  rcases result with e | r
  · simp [myAudioTimerFire, hs, hta, hnb2]
  · rcases r with _ | txt
    · simp [myAudioTimerFire, hs, hta, hnb2]
    · by_cases htxt : txt ≠ [] ∧ jsTrim txt ≠ []
      · simp [myAudioTimerFire, hs, hta, hnb2, htxt]
      · simp [myAudioTimerFire, hs, hta, hnb2, htxt]

theorem myAudioTimerFire_error (st : SttState) (s : Session) (now : Nat)
    (hs : st.mySttSession = some s) (hta : s.hasTranscribeAudio = true)
    (hnb : st.myAudioBuffer.flatten.length > 0) :
    myAudioTimerFire st (Except.error ()) now =
      { st with myAudioBuffer := [], myAudioTimer := none,
                transcribeCallsMe := st.transcribeCallsMe ++
                  [pcmToWav st.myAudioBuffer.flatten 1 24000 16],
                errorLogs := st.errorLogs + 1 } := by
  have hnb2 : 0 < (List.map List.length st.myAudioBuffer).sum := by simpa using hnb
  simp [myAudioTimerFire, hs, hta, hnb2]

set_option maxRecDepth 10000 in
/-- C5: a gaia (batch-only) channel that received arrivals totalling 12000
audio bytes and whose 5000 ms window timer (armed by the first arrival)
then expires with no further input makes exactly one transcribeAudio call,
whose payload is the 12000 + 44 byte WAV wrap of the accumulated bytes; the
pending buffer and the timer handle are cleared at expiry, before and
independently of the submission's outcome. -/
theorem c5_batch_window_single_call (arrivals : List (Nat × List Nat))
    (t0 : Nat) (d0 : List Nat)
    (hhead : arrivals.head? = some (t0, d0))
    (htot : ((arrivals.map Prod.snd).flatten).length = 12000)
    (result : Except Unit (Option (List Char))) (tf : Nat) :
    ∃ st1, sendAudioMany (initState Provider.gaia) arrivals = Except.ok st1
      ∧ st1.myAudioTimer = some (t0 + 5000)
      ∧ st1.myAudioBuffer = arrivals.map Prod.snd
      ∧ (myAudioTimerFire st1 result tf).transcribeCallsMe =
          [pcmToWav ((arrivals.map Prod.snd).flatten) 1 24000 16]
      ∧ (pcmToWav ((arrivals.map Prod.snd).flatten) 1 24000 16).length = 12044
      ∧ (myAudioTimerFire st1 result tf).myAudioBuffer = []
      ∧ (myAudioTimerFire st1 result tf).myAudioTimer = none := by
  rcases arrivals with _ | ⟨a, rest⟩
  · simp at hhead
  · have ha : a = (t0, d0) := by simpa using hhead
    subst ha
    rw [sendAudioMany_gaia ((t0, d0) :: rest) (initState Provider.gaia)
      (mkSession Provider.gaia) rfl rfl]
    refine ⟨_, rfl, by simp [initState, audioTimerAfter], by simp [initState], ?_⟩
    have hfire := myAudioTimerFire_fields
      { initState Provider.gaia with
          myAudioBuffer := (initState Provider.gaia).myAudioBuffer ++
            ((t0, d0) :: rest).map Prod.snd,
          myAudioTimer := audioTimerAfter (initState Provider.gaia).myAudioTimer
            ((t0, d0) :: rest) }
      (mkSession Provider.gaia) result tf (by simp [initState]) rfl
      (by
        have h2 := htot
        simp at h2
        simp [initState]
        omega)
    refine ⟨?_, ?_, hfire.1, hfire.2.1⟩
    · rw [hfire.2.2.1]
      simp [initState]
    · rw [pcmToWav_length, htot]

/-- Witness for C5: a single 12000-byte arrival at t = 0 whose window expires
with a failed submission. -/
theorem c5_batch_window_single_call_witness :
    ∃ st1, sendAudioMany (initState Provider.gaia) [(0, List.replicate 12000 7)] =
        Except.ok st1
      ∧ st1.myAudioTimer = some (0 + 5000)
      ∧ st1.myAudioBuffer = [(0, List.replicate 12000 7)].map Prod.snd
      ∧ (myAudioTimerFire st1 (Except.error ()) 5000).transcribeCallsMe =
          [pcmToWav (([(0, List.replicate 12000 7)].map Prod.snd).flatten) 1 24000 16]
      ∧ (pcmToWav (([(0, List.replicate 12000 7)].map Prod.snd).flatten) 1 24000 16).length = 12044
      ∧ (myAudioTimerFire st1 (Except.error ()) 5000).myAudioBuffer = []
      ∧ (myAudioTimerFire st1 (Except.error ()) 5000).myAudioTimer = none :=
  c5_batch_window_single_call [(0, List.replicate 12000 7)] 0 (List.replicate 12000 7)
    rfl
    (by
      rw [show (([(0, List.replicate 12000 7)].map Prod.snd).flatten) =
            List.replicate 12000 7 ++ [] from rfl,
          List.append_nil, List.length_replicate])
    (Except.error ()) 5000

/-- C7: arming the batch window is idempotent on both channels: an audio
arrival on a gaia channel whose window timer is already armed appends the
data to the pending buffer and leaves the armed timer (deadline and all other
state) unchanged; at most one timer per channel exists by construction (a
single optional handle field per channel). -/
theorem c7_arming_idempotent (st : SttState) (s : Session) (data : List Nat)
    (now d : Nat)
    (hmi : st.modelInfo = some { provider := Provider.gaia }) :
    (st.mySttSession = some s → st.myAudioTimer = some d →
      sendAudioContent st data now =
        Except.ok { st with myAudioBuffer := st.myAudioBuffer ++ [data] })
    ∧ (st.theirSttSession = some s → st.theirAudioTimer = some d →
      sendSystemAudioContent st data now =
        Except.ok { st with theirAudioBuffer := st.theirAudioBuffer ++ [data] }) := by
  constructor
  · intro hs ht
    simp [sendAudioContent, hs, hmi, ht]
  · intro hs ht
    simp [sendSystemAudioContent, hs, hmi, ht]

/-- Witness for C7: concrete gaia state with both window timers armed. -/
theorem c7_arming_idempotent_witness :
    (c7State.mySttSession = some (mkSession Provider.gaia) →
      c7State.myAudioTimer = some 77 →
      sendAudioContent c7State [1] 9 =
        Except.ok { c7State with myAudioBuffer := c7State.myAudioBuffer ++ [[1]] })
    ∧ (c7State.theirSttSession = some (mkSession Provider.gaia) →
      c7State.theirAudioTimer = some 77 →
      sendSystemAudioContent c7State [1] 9 =
        Except.ok { c7State with theirAudioBuffer := c7State.theirAudioBuffer ++ [[1]] }) :=
  c7_arming_idempotent c7State (mkSession Provider.gaia) [1] 9 77 rfl

/-- C8: when a gaia batch submission fails, no stt-update and no completion
callback is emitted for that window, the pending byte buffer is empty and the
timer handle cleared (they were cleared at expiry, before the submission),
the window's audio is gone (only recorded as the one failed call, never
retried), the failure is logged, and a subsequent arrival starts a fresh
window: it lands in an empty buffer and arms a fresh 5000 ms timer. -/
theorem c8_batch_failure_clean (st : SttState) (s : Session) (now now2 : Nat)
    (data2 : List Nat)
    (hs : st.mySttSession = some s) (hta : s.hasTranscribeAudio = true)
    (hmi : st.modelInfo = some { provider := Provider.gaia })
    (hnb : st.myAudioBuffer.flatten.length > 0) :
    (myAudioTimerFire st (Except.error ()) now).rendererEvents = st.rendererEvents
    ∧ (myAudioTimerFire st (Except.error ()) now).completeCallbacks = st.completeCallbacks
    ∧ (myAudioTimerFire st (Except.error ()) now).myAudioBuffer = []
    ∧ (myAudioTimerFire st (Except.error ()) now).myAudioTimer = none
    ∧ (myAudioTimerFire st (Except.error ()) now).transcribeCallsMe =
        st.transcribeCallsMe ++ [pcmToWav st.myAudioBuffer.flatten 1 24000 16]
    ∧ (myAudioTimerFire st (Except.error ()) now).errorLogs = st.errorLogs + 1
    ∧ sendAudioContent (myAudioTimerFire st (Except.error ()) now) data2 now2 =
        Except.ok { myAudioTimerFire st (Except.error ()) now with
          myAudioBuffer := [data2], myAudioTimer := some (now2 + 5000) } := by
  rw [myAudioTimerFire_error st s now hs hta hnb]
  refine ⟨rfl, rfl, rfl, rfl, rfl, rfl, ?_⟩
  simp [sendAudioContent, hs, hmi]

/-- Witness for C8: concrete pending window that fails at expiry, followed by
a fresh arrival. -/
theorem c8_batch_failure_clean_witness :
    ((myAudioTimerFire c10State (Except.error ()) 5000).rendererEvents =
        c10State.rendererEvents)
    ∧ (myAudioTimerFire c10State (Except.error ()) 5000).completeCallbacks =
        c10State.completeCallbacks
    ∧ (myAudioTimerFire c10State (Except.error ()) 5000).myAudioBuffer = []
    ∧ (myAudioTimerFire c10State (Except.error ()) 5000).myAudioTimer = none
    ∧ (myAudioTimerFire c10State (Except.error ()) 5000).transcribeCallsMe =
        c10State.transcribeCallsMe ++
          [pcmToWav c10State.myAudioBuffer.flatten 1 24000 16]
    ∧ (myAudioTimerFire c10State (Except.error ()) 5000).errorLogs =
        c10State.errorLogs + 1
    ∧ sendAudioContent (myAudioTimerFire c10State (Except.error ()) 5000) [3] 8000 =
        Except.ok { myAudioTimerFire c10State (Except.error ()) 5000 with
          myAudioBuffer := [[3]], myAudioTimer := some (8000 + 5000) } :=
  c8_batch_failure_clean c10State (mkSession Provider.gaia) 5000 8000 [3]
    rfl rfl rfl (by decide)

/-- C10: on the gaia batch path the non-emptiness check runs on the raw
transcription text before annotation stripping: a result text consisting
solely of a bracket-delimited annotation is non-empty after trimming, so a
final (non-partial) stt-update is still emitted, and its text — the result
with bracketed and parenthesised annotations stripped, trimmed — is the
empty string (the completion callback still receives the raw trimmed
annotation text). -/
theorem c10_annotation_only_empty_final :
    ((myAudioTimerFire c10State (Except.ok (some musicChars)) 5000).rendererEvents =
      [{ speaker := Speaker.me, text := [], partialFlag := false,
         finalFlag := true, ts := 5000 }])
    ∧ (myAudioTimerFire c10State (Except.ok (some musicChars)) 5000).completeCallbacks =
        [(Speaker.me, musicChars)]
    ∧ jsTrim musicChars ≠ []
    ∧ jsTrim (stripParens (stripBrackets musicChars)) = [] := by
  decide

/-! Session close. -/

/-- C9: closeSessions cancels every armed timer on both channels without
flushing: it posts no stt-update and fires no completion callback (pending
debounced text is discarded), both provider session handles are released
(nulled, their close promises awaited together), and all per-channel state —
utterances, completion buffers, audio buffers, timer handles, model info,
capture process — is reset to empty. The two hypotheses are the batching
invariant that a non-empty pending audio buffer always has an armed window
timer (the code clears an audio buffer only together with its armed timer). -/
theorem c9_close_discards_and_resets (st : SttState)
    (hmy : st.myAudioBuffer ≠ [] → st.myAudioTimer.isSome)
    (hth : st.theirAudioBuffer ≠ [] → st.theirAudioTimer.isSome) :
    (closeSessions st).rendererEvents = st.rendererEvents
    ∧ (closeSessions st).completeCallbacks = st.completeCallbacks
    ∧ (closeSessions st).myCompletionTimer = none
    ∧ (closeSessions st).theirCompletionTimer = none
    ∧ (closeSessions st).myAudioTimer = none
    ∧ (closeSessions st).theirAudioTimer = none
    ∧ (closeSessions st).mySttSession = none
    ∧ (closeSessions st).theirSttSession = none
    ∧ (closeSessions st).myCurrentUtterance = []
    ∧ (closeSessions st).theirCurrentUtterance = []
    ∧ (closeSessions st).myCompletionBuffer = []
    ∧ (closeSessions st).theirCompletionBuffer = []
    ∧ (closeSessions st).myAudioBuffer = []
    ∧ (closeSessions st).theirAudioBuffer = []
    ∧ (closeSessions st).modelInfo = none
    ∧ (closeSessions st).systemAudioProc = false := by
  have hb1 : ¬ st.myAudioTimer.isSome → st.myAudioBuffer = [] := by
    intro h
    by_contra hb
    exact h (hmy hb)
  have hb2 : ¬ st.theirAudioTimer.isSome → st.theirAudioBuffer = [] := by
    intro h
    by_contra hb
    exact h (hth hb)
  by_cases h1 : st.myAudioTimer.isSome
  · by_cases h2 : st.theirAudioTimer.isSome
    · simp [closeSessions, h1, h2]
    · simp [closeSessions, h1, h2, hb2 h2, Option.not_isSome_iff_eq_none.mp h2]
  · by_cases h2 : st.theirAudioTimer.isSome
    · simp [closeSessions, h1, h2, hb1 h1, Option.not_isSome_iff_eq_none.mp h1]
    · simp [closeSessions, h1, h2, hb1 h1, hb2 h2,
            Option.not_isSome_iff_eq_none.mp h1, Option.not_isSome_iff_eq_none.mp h2]

/-- Witness for C9: closing a mid-session state with pending text, pending
audio and armed timers on both channels. -/
theorem c9_close_discards_and_resets_witness :
    (closeSessions c9State).rendererEvents = c9State.rendererEvents
    ∧ (closeSessions c9State).completeCallbacks = c9State.completeCallbacks
    ∧ (closeSessions c9State).myCompletionTimer = none
    ∧ (closeSessions c9State).theirCompletionTimer = none
    ∧ (closeSessions c9State).myAudioTimer = none
    ∧ (closeSessions c9State).theirAudioTimer = none
    ∧ (closeSessions c9State).mySttSession = none
    ∧ (closeSessions c9State).theirSttSession = none
    ∧ (closeSessions c9State).myCurrentUtterance = []
    ∧ (closeSessions c9State).theirCurrentUtterance = []
    ∧ (closeSessions c9State).myCompletionBuffer = []
    ∧ (closeSessions c9State).theirCompletionBuffer = []
    ∧ (closeSessions c9State).myAudioBuffer = []
    ∧ (closeSessions c9State).theirAudioBuffer = []
    ∧ (closeSessions c9State).modelInfo = none
    ∧ (closeSessions c9State).systemAudioProc = false :=
  c9_close_discards_and_resets c9State (by decide) (by decide)

/-! Capture chunking lemmas. -/

theorem chunkSlices_of_lt {b : List Nat} (hb : b.length < 9600) :
    chunkSlices b = [] := by
  unfold chunkSlices
  rw [Nat.div_eq_of_lt hb]
  rfl

theorem chunkLeft_of_lt {b : List Nat} (hb : b.length < 9600) :
    chunkLeft b = b := by
  unfold chunkLeft
  rw [Nat.div_eq_of_lt hb]
  simp

theorem captureSends_of_lt (mi : ModelInfo) (sess : Option Session) {b : List Nat}
    (hb : b.length < 9600) : captureSends mi sess b = [] := by
  unfold captureSends
  cases sess with
  | none => rfl
  | some s => rw [chunkSlices_of_lt hb]; simp

theorem captureErrs_of_lt (sess : Option Session) {b : List Nat}
    (hb : b.length < 9600) : captureErrs sess b = 0 := by
  unfold captureErrs
  cases sess with
  | none => rfl
  | some s => rw [chunkSlices_of_lt hb]; simp

theorem chunkSlices_cons {b : List Nat} (hb : 9600 ≤ b.length) :
    chunkSlices b = b.take 9600 :: chunkSlices (b.drop 9600) := by
  unfold chunkSlices
  have hlen : (b.drop 9600).length = b.length - 9600 := by simp
  rw [hlen]
  rw [show b.length / 9600 = (b.length - 9600) / 9600 + 1 from by omega]
  rw [List.range_succ_eq_map, List.map_cons, List.map_map]
  have htail : (List.range ((b.length - 9600) / 9600)).map
      ((fun i => (b.drop (9600 * i)).take 9600) ∘ (· + 1)) =
      (List.range ((b.length - 9600) / 9600)).map
        (fun i => ((b.drop 9600).drop (9600 * i)).take 9600) := by
    apply List.map_eq_map_iff.mpr
    intro i hi
    simp only [Function.comp_apply]
    rw [List.drop_drop]
    congr 2
    omega
  rw [htail]
  simp

theorem chunkLeft_step {b : List Nat} (hb : 9600 ≤ b.length) :
    chunkLeft b = chunkLeft (b.drop 9600) := by
  unfold chunkLeft
  have hlen : (b.drop 9600).length = b.length - 9600 := by simp
  rw [hlen, List.drop_drop]
  congr 1
  omega

theorem chunkSlices_count (b : List Nat) :
    (chunkSlices b).length = b.length / 9600 := by
  simp [chunkSlices]

theorem chunkLeft_length (b : List Nat) :
    (chunkLeft b).length = b.length % 9600 := by
  simp [chunkLeft]
  omega

theorem chunkSlices_mem_length {b c : List Nat} (hc : c ∈ chunkSlices b) :
    c.length = 9600 := by
  rcases List.mem_map.mp hc with ⟨i, hi, rfl⟩
  have hik : i < b.length / 9600 := List.mem_range.mp hi
  have : 9600 * i + 9600 ≤ b.length := by omega
  simp [List.length_take, List.length_drop]
  omega

theorem captureForward_none (mi : ModelInfo) (st : SttState) (mono : List Nat)
    (h : st.theirSttSession = none) :
    captureForward mi st mono =
      { st with meteringEvents := st.meteringEvents ++ [mono] } := by
  simp [captureForward, h]

theorem captureForward_sri (mi : ModelInfo) (st : SttState) (mono : List Nat)
    (s : Session) (h : st.theirSttSession = some s)
    (hsri : s.hasSendRealtimeInput = true) :
    captureForward mi st mono =
      { st with meteringEvents := st.meteringEvents ++ [mono],
                realtimeSendsThem := st.realtimeSendsThem ++
                  [if mi.provider = Provider.gemini
                   then RtPayload.geminiAudio mono else RtPayload.raw mono] } := by
  simp [captureForward, h, hsri]

theorem captureForward_nosri (mi : ModelInfo) (st : SttState) (mono : List Nat)
    (s : Session) (h : st.theirSttSession = some s)
    (hsri : s.hasSendRealtimeInput = false) :
    captureForward mi st mono =
      { st with meteringEvents := st.meteringEvents ++ [mono],
                errorLogs := st.errorLogs + 1 } := by
  simp [captureForward, h, hsri]

theorem captureLoop_spec (mi : ModelInfo) :
    ∀ (fuel : Nat) (st : SttState) (b : List Nat),
      b.length / 9600 ≤ fuel →
      captureLoop mi fuel st b =
        ({ st with
            meteringEvents := st.meteringEvents ++
              (chunkSlices b).map convertStereoToMono,
            realtimeSendsThem := st.realtimeSendsThem ++
              captureSends mi st.theirSttSession b,
            errorLogs := st.errorLogs + captureErrs st.theirSttSession b },
         chunkLeft b) := by
  intro fuel
  induction fuel with
  | zero =>
    intro st b hf
    have hb : b.length < 9600 := by omega
    simp [captureLoop, chunkSlices_of_lt hb, chunkLeft_of_lt hb,
          captureSends_of_lt mi _ hb, captureErrs_of_lt _ hb]
  | succ fuel ih =>
    intro st b hf
    by_cases hb : 9600 ≤ b.length
    · rw [captureLoop, if_pos hb]
      have hfd : (b.drop 9600).length / 9600 ≤ fuel := by
        have : (b.drop 9600).length = b.length - 9600 := by simp
        omega
      rcases hsess : st.theirSttSession with _ | s
      · rw [captureForward_none mi st _ hsess, ih _ _ hfd]
        simp [hsess, chunkSlices_cons hb, chunkLeft_step hb, captureSends, captureErrs]
      · cases hsri : s.hasSendRealtimeInput with
        | true =>
          rw [captureForward_sri mi st _ s hsess hsri, ih _ _ hfd]
          simp [hsess, hsri, chunkSlices_cons hb, chunkLeft_step hb,
                captureSends, captureErrs]
        | false =>
          rw [captureForward_nosri mi st _ s hsess hsri, ih _ _ hfd]
          simp [hsess, hsri, chunkSlices_cons hb, chunkLeft_step hb,
                captureSends, captureErrs]
          omega
    · rw [captureLoop, if_neg hb]
      have hblt : b.length < 9600 := by omega
      simp [chunkSlices_of_lt hblt, chunkLeft_of_lt hblt,
            captureSends_of_lt mi _ hblt, captureErrs_of_lt _ hblt]

theorem captureOnData_spec (mi : ModelInfo) (st : SttState) (acc data : List Nat) :
    captureOnData mi st acc data =
      ({ st with
          meteringEvents := st.meteringEvents ++
            (chunkSlices (acc ++ data)).map convertStereoToMono,
          realtimeSendsThem := st.realtimeSendsThem ++
            captureSends mi st.theirSttSession (acc ++ data),
          errorLogs := st.errorLogs + captureErrs st.theirSttSession (acc ++ data) },
       chunkLeft (acc ++ data)) :=
  captureLoop_spec mi (acc ++ data).length st (acc ++ data)
    (Nat.div_le_self _ _)

theorem chunkSlices_append (a c : List Nat) :
    chunkSlices (a ++ c) = chunkSlices a ++ chunkSlices (chunkLeft a ++ c) := by
  have hrem : (chunkLeft a).length = a.length - 9600 * (a.length / 9600) := by
    simp [chunkLeft]
  have hcount : (a ++ c).length / 9600 =
      a.length / 9600 + (chunkLeft a ++ c).length / 9600 := by
    simp [hrem]
    omega
  unfold chunkSlices
  rw [hcount, List.range_add, List.map_append, List.map_map]
  congr 1
  · apply List.map_eq_map_iff.mpr
    intro i hi
    have hik : i < a.length / 9600 := List.mem_range.mp hi
    have h1 : 9600 * i + 9600 ≤ a.length := by omega
    rw [List.drop_append_eq_append_drop]
    rw [show 9600 * i - a.length = 0 from by omega]
    rw [List.take_append_eq_append_take]
    rw [show 9600 - (a.drop (9600 * i)).length = 0 from by simp; omega]
    simp
  · apply List.map_eq_map_iff.mpr
    intro j hj
    simp only [Function.comp_apply]
    rw [show 9600 * (a.length / 9600 + j) =
          9600 * (a.length / 9600) + 9600 * j from by ring]
    rw [← List.drop_drop, List.drop_append_eq_append_drop]
    rw [show 9600 * (a.length / 9600) - a.length = 0 from by omega]
    rw [show List.drop 0 c = c from rfl]
    rfl

theorem chunkLeft_append (a c : List Nat) :
    chunkLeft (a ++ c) = chunkLeft (chunkLeft a ++ c) := by
  have hrem : (chunkLeft a).length = a.length - 9600 * (a.length / 9600) := by
    simp [chunkLeft]
  have h1 : 9600 * ((a ++ c).length / 9600) =
      9600 * (a.length / 9600) + 9600 * ((chunkLeft a ++ c).length / 9600) := by
    simp [hrem]
    omega
  conv_lhs => rw [chunkLeft]
  rw [h1, ← List.drop_drop, List.drop_append_eq_append_drop]
  rw [show 9600 * (a.length / 9600) - a.length = 0 from by omega]
  rw [show List.drop 0 c = c from rfl]
  rfl

theorem captureSends_append (mi : ModelInfo) (sess : Option Session) (a c : List Nat) :
    captureSends mi sess (a ++ c) =
      captureSends mi sess a ++ captureSends mi sess (chunkLeft a ++ c) := by
  cases sess with
  | none => rfl
  | some s =>
    cases hsri : s.hasSendRealtimeInput with
    | true =>
      simp only [captureSends, hsri, if_true]
      rw [chunkSlices_append]
      simp [List.map_append]
    | false => simp [captureSends, hsri]

theorem captureErrs_append (sess : Option Session) (a c : List Nat) :
    captureErrs sess (a ++ c) =
      captureErrs sess a + captureErrs sess (chunkLeft a ++ c) := by
  cases sess with
  | none => rfl
  | some s =>
    cases hsri : s.hasSendRealtimeInput with
    | true => simp [captureErrs, hsri]
    | false =>
      simp only [captureErrs, hsri, Bool.false_eq_true, if_false]
      rw [chunkSlices_append]
      simp

set_option maxRecDepth 8000 in
theorem captureRun_spec (mi : ModelInfo) :
    ∀ (datas : List (List Nat)) (st : SttState) (acc : List Nat),
      datas ≠ [] →
      captureRun mi st acc datas =
        ({ st with
            meteringEvents := st.meteringEvents ++
              (chunkSlices (acc ++ datas.flatten)).map convertStereoToMono,
            realtimeSendsThem := st.realtimeSendsThem ++
              captureSends mi st.theirSttSession (acc ++ datas.flatten),
            errorLogs := st.errorLogs +
              captureErrs st.theirSttSession (acc ++ datas.flatten) },
         chunkLeft (acc ++ datas.flatten)) := by
  intro datas
  induction datas with
  | nil => intro st acc h; exact absurd rfl h
  | cons d rest ih =>
    intro st acc _
    cases rest with
    | nil =>
      have hfl : ([d] : List (List Nat)).flatten = d := by simp
      rw [show captureRun mi st acc [d] = captureOnData mi st acc d from rfl]
      rw [captureOnData_spec mi st acc d, hfl]
    | cons r rs =>
      rw [show captureRun mi st acc (d :: r :: rs) =
            captureRun mi (captureOnData mi st acc d).1
              (captureOnData mi st acc d).2 (r :: rs) from rfl]
      rw [captureOnData_spec]
      rw [ih _ _ (by simp)]
      have hassoc : acc ++ (d :: r :: rs).flatten = (acc ++ d) ++ (r :: rs).flatten := by
        simp
      rw [hassoc, chunkSlices_append (acc ++ d) ((r :: rs).flatten),
          captureSends_append mi st.theirSttSession (acc ++ d) ((r :: rs).flatten),
          captureErrs_append st.theirSttSession (acc ++ d) ((r :: rs).flatten),
          chunkLeft_append (acc ++ d) ((r :: rs).flatten)]
      dsimp only
      simp only [List.map_append, List.append_assoc, Nat.add_assoc]

/-- C6: across any sequence of capture stdout read events starting from an
empty working buffer, the forwarded chunks are exactly the aligned complete
9600-byte slices of the concatenated stream (each downmixed before
forwarding), so their count is floor(totalBytes / 9600); the retained
leftover is the stream's tail from the last chunk boundary, of length
totalBytes mod 9600 (at most 9599); every forwarded chunk is 9600 bytes,
a whole number of 4-byte sample frames, cut at frame-aligned offsets. -/
theorem c6_capture_chunk_count (mi : ModelInfo) (st : SttState)
    (datas : List (List Nat)) :
    ((captureRun mi st [] datas).1.meteringEvents =
      st.meteringEvents ++ (chunkSlices datas.flatten).map convertStereoToMono)
    ∧ (captureRun mi st [] datas).1.meteringEvents.length =
        st.meteringEvents.length + datas.flatten.length / 9600
    ∧ (captureRun mi st [] datas).2 =
        datas.flatten.drop (9600 * (datas.flatten.length / 9600))
    ∧ (captureRun mi st [] datas).2.length = datas.flatten.length % 9600
    ∧ (captureRun mi st [] datas).2.length ≤ 9599
    ∧ (∀ c ∈ chunkSlices datas.flatten, c.length = 9600 ∧ c.length % 4 = 0) := by
  have hmem : ∀ c ∈ chunkSlices datas.flatten, c.length = 9600 ∧ c.length % 4 = 0 := by
    intro c hc
    have := chunkSlices_mem_length hc
    omega
  cases hd : datas with
  | nil =>
    refine ⟨?_, ?_, ?_, ?_, ?_, by simpa [hd] using hmem⟩ <;>
      simp [captureRun, chunkSlices_of_lt, chunkLeft_of_lt]
  | cons d rest =>
    rw [captureRun_spec mi (d :: rest) st [] (by simp)]
    have hnil : ([] : List Nat) ++ (d :: rest).flatten = (d :: rest).flatten := by simp
    rw [hnil]
    refine ⟨rfl, ?_, rfl, ?_, ?_, by simpa [hd] using hmem⟩
    · simp [chunkSlices_count]
    · exact chunkLeft_length _
    · show (chunkLeft ((d :: rest).flatten)).length ≤ 9599
      have := chunkLeft_length ((d :: rest).flatten)
      omega

/-- C4 counterexample run: a full 9600-byte capture chunk arriving on a gaia
(BatchOnly) session is downmixed and metered, but never reaches the
AudioBatcher: the pending audio buffer stays empty, no transcription is ever
requested, nothing is sent, and the sendRealtimeInput TypeError is logged. -/
theorem c4_as_stated_counterexample :
    ((captureOnData { provider := Provider.gaia } (initState Provider.gaia) []
        (List.replicate 9600 0)).1.meteringEvents.length = 1)
    ∧ (captureOnData { provider := Provider.gaia } (initState Provider.gaia) []
        (List.replicate 9600 0)).1.theirAudioBuffer = []
    ∧ (captureOnData { provider := Provider.gaia } (initState Provider.gaia) []
        (List.replicate 9600 0)).1.transcribeCallsThem = []
    ∧ (captureOnData { provider := Provider.gaia } (initState Provider.gaia) []
        (List.replicate 9600 0)).1.realtimeSendsThem = []
    ∧ (captureOnData { provider := Provider.gaia } (initState Provider.gaia) []
        (List.replicate 9600 0)).1.errorLogs = 1 := by
  rw [captureOnData_spec]
  have hc : (chunkSlices (List.replicate 9600 (0 : Nat))).length = 1 := by
    rw [chunkSlices_count, List.length_replicate]
  have hgen : ∀ (s : Session) (b : List Nat), s.hasSendRealtimeInput = false →
      captureErrs (some s) b = (chunkSlices b).length := by
    intro s b hsri
    simp [captureErrs, hsri]
  refine ⟨?_, rfl, rfl, rfl, ?_⟩
  · show ((initState Provider.gaia).meteringEvents ++
        (chunkSlices (([] : List Nat) ++ List.replicate 9600 0)).map
          convertStereoToMono).length = 1
    rw [List.nil_append, List.length_append, List.length_map, hc]
    rfl
  · show (initState Provider.gaia).errorLogs +
        captureErrs (initState Provider.gaia).theirSttSession
          (([] : List Nat) ++ List.replicate 9600 0) = 1
    rw [List.nil_append,
        show (initState Provider.gaia).theirSttSession =
          some (mkSession Provider.gaia) from rfl,
        hgen (mkSession Provider.gaia) _ rfl, hc]
    rfl

/-- C4 (amended): every complete 9600-byte chunk sliced from the capture
subprocess output is downmixed to mono and posted outward as a UI-metering
event; it is then sent directly to the remote provider session's
sendRealtimeInput (gemini-wrapped or raw base64), NOT through the
sendSystemAudioContent ingestion path: the remote AudioBatcher buffer and the
batch transcription trace are never touched by capture. For a session
exposing sendRealtimeInput each chunk's payload is recorded; for a session
without it (the gaia BatchOnly session) each chunk's send throws, the error
is caught and logged, and the audio is dropped. -/
theorem c4_capture_bypasses_batcher (mi : ModelInfo) (st : SttState)
    (acc data : List Nat) (s : Session)
    (hs : st.theirSttSession = some s) :
    ((captureOnData mi st acc data).1.meteringEvents =
      st.meteringEvents ++ (chunkSlices (acc ++ data)).map convertStereoToMono)
    ∧ (captureOnData mi st acc data).1.theirAudioBuffer = st.theirAudioBuffer
    ∧ (captureOnData mi st acc data).1.transcribeCallsThem = st.transcribeCallsThem
    ∧ (s.hasSendRealtimeInput = true →
        (captureOnData mi st acc data).1.realtimeSendsThem =
          st.realtimeSendsThem ++ (chunkSlices (acc ++ data)).map (fun c =>
            if mi.provider = Provider.gemini
            then RtPayload.geminiAudio (convertStereoToMono c)
            else RtPayload.raw (convertStereoToMono c))
        ∧ (captureOnData mi st acc data).1.errorLogs = st.errorLogs)
    ∧ (s.hasSendRealtimeInput = false →
        (captureOnData mi st acc data).1.errorLogs =
          st.errorLogs + (chunkSlices (acc ++ data)).length
        ∧ (captureOnData mi st acc data).1.realtimeSendsThem =
            st.realtimeSendsThem) := by
  rw [captureOnData_spec]
  refine ⟨rfl, rfl, rfl, ?_, ?_⟩
  · intro hsri
    constructor
    · simp [captureSends, hs, hsri]
    · simp [captureErrs, hs, hsri]
  · intro hsri
    constructor
    · simp [captureErrs, hs, hsri]
    · simp [captureSends, hs, hsri]

/-- Witness for the amended C4: one 9600-byte chunk on a gaia session. -/
theorem c4_capture_bypasses_batcher_witness :
    ((captureOnData { provider := Provider.gaia } (initState Provider.gaia) []
        (List.replicate 9600 0)).1.meteringEvents =
      (initState Provider.gaia).meteringEvents ++
        (chunkSlices ([] ++ List.replicate 9600 0)).map convertStereoToMono)
    ∧ (captureOnData { provider := Provider.gaia } (initState Provider.gaia) []
        (List.replicate 9600 0)).1.theirAudioBuffer =
        (initState Provider.gaia).theirAudioBuffer
    ∧ (captureOnData { provider := Provider.gaia } (initState Provider.gaia) []
        (List.replicate 9600 0)).1.transcribeCallsThem =
        (initState Provider.gaia).transcribeCallsThem
    ∧ ((mkSession Provider.gaia).hasSendRealtimeInput = true →
        (captureOnData { provider := Provider.gaia } (initState Provider.gaia) []
          (List.replicate 9600 0)).1.realtimeSendsThem =
          (initState Provider.gaia).realtimeSendsThem ++
            (chunkSlices ([] ++ List.replicate 9600 0)).map (fun c =>
              if ModelInfo.provider { provider := Provider.gaia } = Provider.gemini
              then RtPayload.geminiAudio (convertStereoToMono c)
              else RtPayload.raw (convertStereoToMono c))
        ∧ (captureOnData { provider := Provider.gaia } (initState Provider.gaia) []
            (List.replicate 9600 0)).1.errorLogs = (initState Provider.gaia).errorLogs)
    ∧ ((mkSession Provider.gaia).hasSendRealtimeInput = false →
        (captureOnData { provider := Provider.gaia } (initState Provider.gaia) []
          (List.replicate 9600 0)).1.errorLogs =
          (initState Provider.gaia).errorLogs +
            (chunkSlices ([] ++ List.replicate 9600 0)).length
        ∧ (captureOnData { provider := Provider.gaia } (initState Provider.gaia) []
            (List.replicate 9600 0)).1.realtimeSendsThem =
            (initState Provider.gaia).realtimeSendsThem) :=
  c4_capture_bypasses_batcher { provider := Provider.gaia } (initState Provider.gaia)
    [] (List.replicate 9600 0) (mkSession Provider.gaia) rfl

end GlassStt
